import Mathlib

/-
  Verification of the liv-agent catalog transformation pipeline.

  The Python sources (src/backend/beauty_product_manager.py, src/backend/main.py,
  src/backend/agents/_ _init_ _.py, src/backend/enhanced_manager.py) are embedded
  shallowly: Python strings become lists of characters, pandas cells become an
  explicit inductive type, fallible operations return Option, and the try/except
  control flow of load_csv becomes an Option-valued traversal.
-/

set_option maxRecDepth 8192

namespace LivAgent

/-- Python strings are embedded as lists of characters. -/
abbrev Str := List Char

/-- Embeds Python str.strip() with no arguments: remove leading and trailing
whitespace characters. -/
def trimStr (s : Str) : Str :=
  ((s.dropWhile Char.isWhitespace).reverse.dropWhile Char.isWhitespace).reverse

/-- Embeds Python substring containment, the expression written as sep in s:
true when sep occurs contiguously anywhere in s. -/
def isSubstrOf (sep : Str) : Str → Bool
  | [] => sep.isEmpty
  | c :: rest => sep.isPrefixOf (c :: rest) || isSubstrOf sep rest

/-- Containment with the argument order of the Python source (string first,
separator second). -/
def containsSub (s sep : Str) : Bool := isSubstrOf sep s

/-- Fuel-driven worker for pySplit.  Splits at each leftmost, non-overlapping
occurrence of the separator, keeping empty pieces, exactly as Python
str.split(sep) does for a non-empty separator.  The fuel only serves
termination; pySplit always supplies enough. -/
def splitFuel (sep : Str) : Nat → Str → List Str
  | _, [] => [[]]
  | 0, s => [s]
  | fuel + 1, c :: rest =>
    if sep.isPrefixOf (c :: rest) && !sep.isEmpty then
      [] :: splitFuel sep fuel ((c :: rest).drop sep.length)
    else
      match splitFuel sep fuel rest with
      | [] => [[c]]
      | piece :: pieces => (c :: piece) :: pieces

/-- Embeds Python s.split(sep) for a non-empty separator string. -/
def pySplit (s sep : Str) : List Str := splitFuel sep (s.length + 1) s

/-- Embeds the comprehension used by both list-field parsers
(beauty_product_manager.py lines 108 and 121): strip every piece and drop the
pieces that strip to the empty string. -/
def cleanPieces (pieces : List Str) : List Str :=
  (pieces.map trimStr).filter (fun p => !p.isEmpty)

/-- Embeds the separator-scanning loop of parse_skin_types and
parse_ingredients: return the first separator of the list that occurs in s. -/
def findSep (s : Str) : List Str → Option Str
  | [] => none
  | sep :: rest => if containsSub s sep then some sep else findSep s rest

/-- The separator list of BeautyProductManager.parse_skin_types
(beauty_product_manager.py line 105): comma, semicolon, pipe, Persian comma. -/
def skinTypeSeparators : List Str :=
  [(",").data, (";").data, ("|").data, ("،").data]

/-- The separator list of BeautyProductManager.parse_ingredients
(beauty_product_manager.py line 118): the skin-type list plus the padded pipe. -/
def ingredientSeparators : List Str :=
  [(",").data, (";").data, ("|").data, ("،").data, (" | ").data]

/-- Embeds BeautyProductManager.parse_skin_types
(beauty_product_manager.py lines 99 to 110). -/
def parse_skin_types (s : Str) : List Str :=
  if s.isEmpty then []
  else
    match findSep s skinTypeSeparators with
    | some sep => cleanPieces (pySplit s sep)
    | none => if (trimStr s).isEmpty then [] else [trimStr s]

/-- Embeds BeautyProductManager.parse_ingredients
(beauty_product_manager.py lines 112 to 123). -/
def parse_ingredients (s : Str) : List Str :=
  if s.isEmpty then []
  else
    match findSep s ingredientSeparators with
    | some sep => cleanPieces (pySplit s sep)
    | none => if (trimStr s).isEmpty then [] else [trimStr s]

/-- The field-list parsing rule of spec.md section 3, transcribed from the
spec words for comparison with the code: test the delimiters in the given
priority order, pick the first one that occurs anywhere in the string and
split on it, trim each piece, drop empty pieces; with no delimiter present the
trimmed string becomes a singleton, or the empty list when it trims away. -/
def specFieldListRule (seps : List Str) (s : Str) : List Str :=
  match seps.find? (fun sep => containsSub s sep) with
  | some sep => cleanPieces (pySplit s sep)
  | none => if (trimStr s).isEmpty then [] else [trimStr s]

lemma findSep_eq_find? (s : Str) (l : List Str) :
    findSep s l = l.find? (fun sep => containsSub s sep) := by
  induction l with
  | nil => rfl
  | cons sep rest ih =>
    simp only [findSep, List.find?]
    by_cases h : containsSub s sep
    · simp [h]
    · simp only [Bool.not_eq_true] at h
      simp [h, ih]

lemma isPrefixOf_true_iff (l₁ l₂ : Str) : l₁.isPrefixOf l₂ = true ↔ l₁ <+: l₂ :=
  List.isPrefixOf_iff_prefix

lemma isSubstrOf_true_iff (sep s : Str) : isSubstrOf sep s = true ↔ sep <:+: s := by
  induction s with
  | nil => simp [isSubstrOf, List.infix_nil, List.isEmpty_iff]
  | cons c rest ih =>
    simp only [isSubstrOf, Bool.or_eq_true, ih, isPrefixOf_true_iff, List.infix_cons_iff]

lemma containsSub_pipe_of_padded (s : Str)
    (h : containsSub s (" | ").data = true) : containsSub s ("|").data = true := by
  rw [containsSub, isSubstrOf_true_iff] at h ⊢
  exact List.IsInfix.trans (by decide) h

lemma parse_skin_types_eq_rule (s : Str) :
    parse_skin_types s = specFieldListRule skinTypeSeparators s := by
  cases s with
  | nil => rfl
  | cons c cs =>
    unfold parse_skin_types specFieldListRule
    rw [findSep_eq_find?]
    rfl

lemma parse_ingredients_eq_rule (s : Str) :
    parse_ingredients s = specFieldListRule ingredientSeparators s := by
  cases s with
  | nil => rfl
  | cons c cs =>
    unfold parse_ingredients specFieldListRule
    rw [findSep_eq_find?]
    rfl

/-- C1: list-field parsing tests the delimiters in the fixed priority order
comma, semicolon, pipe, Persian comma (with the padded pipe appended for
ingredients), splits only on the first delimiter occurring anywhere in the
string, trims each piece and drops empty pieces (both parsers agree with the
spec rule instantiated at their separator lists); in particular a string
containing a semicolon but no comma is split on the semicolon alone, so pipes
survive inside pieces. -/
theorem claim1_field_list_parsing (s : Str) :
    parse_skin_types s = specFieldListRule skinTypeSeparators s ∧
    parse_ingredients s = specFieldListRule ingredientSeparators s ∧
    (containsSub s (",").data = false → containsSub s (";").data = true →
      parse_skin_types s = cleanPieces (pySplit s (";").data)) := by
  refine ⟨parse_skin_types_eq_rule s, parse_ingredients_eq_rule s, ?_⟩
  intro hc hs
  cases s with
  | nil => simp [containsSub, isSubstrOf] at hs
  | cons c cs =>
    simp [parse_skin_types, findSep, skinTypeSeparators, hc, hs]

/-- Witness for C1 at the concrete input of the spec: the string a;b|c has a
semicolon and a pipe but no comma, and is split on the semicolon only. -/
theorem claim1_field_list_parsing_witness :
    parse_skin_types ("a;b|c").data = cleanPieces (pySplit ("a;b|c").data (";").data) :=
  (claim1_field_list_parsing (("a;b|c").data)).2.2 (by decide) (by decide)

/-- C10: parse_ingredients computes exactly the same list as parse_skin_types
on every input, because the padded pipe separator is tested after the bare
pipe and every string containing the padded pipe also contains the bare pipe,
so the extra separator is never selected. -/
theorem claim10_parse_ingredients_eq_parse_skin_types (s : Str) :
    parse_ingredients s = parse_skin_types s := by
  unfold parse_ingredients parse_skin_types
  cases hs : s.isEmpty
  · simp only [hs, Bool.false_eq_true, if_false]
    unfold ingredientSeparators skinTypeSeparators
    simp only [findSep]
    by_cases h1 : containsSub s (",").data
    · simp [h1]
    · simp only [Bool.not_eq_true] at h1
      by_cases h2 : containsSub s (";").data
      · simp [h1, h2]
      · simp only [Bool.not_eq_true] at h2
        by_cases h3 : containsSub s ("|").data
        · simp [h1, h2, h3]
        · simp only [Bool.not_eq_true] at h3
          by_cases h4 : containsSub s ("،").data
          · simp [h1, h2, h3, h4]
          · simp only [Bool.not_eq_true] at h4
            have h5 : containsSub s (" | ").data = false := by
              cases h5 : containsSub s (" | ").data
              · rfl
              · exact absurd (containsSub_pipe_of_padded s h5) (by simp [h3])
            simp [h1, h2, h3, h4, h5]
  · simp [hs]

/-- The value domain of Python floats, idealized: NaN, the two infinities, and
finite values represented as rationals (binary rounding of double precision is
not modelled; no claim depends on it). -/
inductive PyFloat where
  | nan
  | inf
  | ninf
  | val (q : ℚ)
deriving DecidableEq

/-- A cell of the dataframe produced by pandas.read_csv at
beauty_product_manager.py line 73: a float NaN (what pandas stores for its
default NA markers such as N/A or an empty cell), an integer, a finite float,
an infinity, or a plain string. -/
inductive Cell where
  | nan
  | int (n : ℤ)
  | float (q : ℚ)
  | inf (neg : Bool)
  | str (s : Str)
deriving DecidableEq

/-- A dataframe row: an association of column names to cells, looked up in
order. -/
abbrev Row := List (Str × Cell)

/-- Ordered association-list lookup, embedding both pandas Series.get and
Python dict.get with the default omitted. -/
def alistGet? {β : Type} : List (Str × β) → Str → Option β
  | [], _ => none
  | (k', v) :: rest, k => if k' = k then some v else alistGet? rest k

/-- Embeds row.get(key, default): the cell under the column name when the
column exists, the default otherwise. -/
def pyGet (r : Row) (k : Str) (dflt : Cell) : Cell :=
  match alistGet? r k with
  | some c => c
  | none => dflt

def colID : Str := ("ID").data
def colName : Str := ("Name").data
def colBrandMeta : Str := ("Meta: _livora_brand_name").data
def colBrand : Str := ("Brand").data
def colCategories : Str := ("Categories").data
def colRegularPrice : Str := ("Regular price").data
def colDescription : Str := ("Description").data
def colSKU : Str := ("SKU").data
def colSkinType : Str := ("Meta: _livora_skin_type").data
def colIngredients : Str := ("Meta: ingredients").data
def colUsage : Str := ("Meta: usage_instructions").data

def isDigitOrUnderscore (c : Char) : Bool := c.isDigit || c == '_'

def stripUnderscores (r : Str) : Str := r.filter (fun c => c != '_')

def noDoubleUnderscore : Str → Bool
  | a :: b :: rest => !(a == '_' && b == '_') && noDoubleUnderscore (b :: rest)
  | _ => true

/-- A digit run of a Python numeric literal: non-empty digits with single
underscores allowed only between digits. -/
def validDigitRun (r : Str) : Bool :=
  !r.isEmpty && !(r.head? == some '_') && !(r.getLast? == some '_') &&
    noDoubleUnderscore r

def digitsToNat (r : Str) : Nat :=
  r.foldl (fun acc c => 10 * acc + (c.toNat - 48)) 0

/-- Strips one optional leading sign; the Bool is true for a minus sign. -/
def splitSign : Str → Bool × Str
  | '+' :: rest => (false, rest)
  | '-' :: rest => (true, rest)
  | s => (false, s)

def lowerStr (s : Str) : Str := s.map Char.toLower

def takeDigitRun (s : Str) : Str × Str :=
  (s.takeWhile isDigitOrUnderscore, s.dropWhile isDigitOrUnderscore)

/-- The numeric value sign * (intpart.fracpart) * 10 ^ e of a parsed float
literal. -/
def mantValue (neg : Bool) (intRun fracRun : Str) (e : ℤ) : ℚ :=
  let iv : ℚ := (digitsToNat (stripUnderscores intRun) : ℚ)
  let fd := stripUnderscores fracRun
  let fv : ℚ := (digitsToNat fd : ℚ) / ((10 : ℚ) ^ fd.length)
  let mag := (iv + fv) * (10 : ℚ) ^ e
  if neg then -mag else mag

/-- Validates the digit runs and the optional exponent suffix of a Python
float literal and produces its value. -/
def parseMantExp (neg : Bool) (intRun fracRun : Str) (hasDot : Bool)
    (rest : Str) : Option PyFloat :=
  let mantOk : Bool :=
    if hasDot then
      (intRun.isEmpty || validDigitRun intRun) &&
      (fracRun.isEmpty || validDigitRun fracRun) &&
      !(intRun.isEmpty && fracRun.isEmpty)
    else validDigitRun intRun
  match rest with
  | [] => if mantOk then some (PyFloat.val (mantValue neg intRun fracRun 0)) else none
  | c :: t =>
    if c = 'e' ∨ c = 'E' then
      let se := splitSign t
      let er := takeDigitRun se.2
      if mantOk && validDigitRun er.1 && er.2.isEmpty then
        let e : ℤ := (digitsToNat (stripUnderscores er.1) : ℤ)
        some (PyFloat.val (mantValue neg intRun fracRun (if se.1 then -e else e)))
      else none
    else none

/-- Embeds Python float(str): strip surrounding whitespace, accept an optional
sign, the words nan, inf and infinity case-insensitively, or a decimal
mantissa with an optional exponent; anything else raises, modelled as none.
Unicode digits beyond ASCII are not modelled; no claim feeds them. -/
def parseFloatLit (s0 : Str) : Option PyFloat :=
  let s := trimStr s0
  let sb := splitSign s
  let lbody := lowerStr sb.2
  if lbody = ("nan").data then some PyFloat.nan
  else if lbody = ("inf").data ∨ lbody = ("infinity").data then
    some (if sb.1 then PyFloat.ninf else PyFloat.inf)
  else
    let ir := takeDigitRun sb.2
    match ir.2 with
    | '.' :: t =>
      let fr := takeDigitRun t
      parseMantExp sb.1 ir.1 fr.1 true fr.2
    | _ => parseMantExp sb.1 ir.1 [] false ir.2

/-- Embeds Python float(cell), the coercion at beauty_product_manager.py
line 82: numbers pass through (NaN stays NaN), strings go through the float
literal parser, whose failure is the ValueError that aborts load_csv. -/
def pyFloatOfCell : Cell → Option PyFloat
  | Cell.int n => some (PyFloat.val n)
  | Cell.float q => some (PyFloat.val q)
  | Cell.nan => some PyFloat.nan
  | Cell.inf b => some (if b then PyFloat.ninf else PyFloat.inf)
  | Cell.str s => parseFloatLit s

def natDigitChar (n : Nat) : Char := Char.ofNat (48 + n)

def fracDigitsAux : Nat → Nat → Nat → Str
  | 0, _, _ => []
  | _ + 1, 0, _ => []
  | fuel + 1, r, d => natDigitChar (r * 10 / d) :: fracDigitsAux fuel (r * 10 % d) d

/-- Embeds Python str() of a finite float, idealized over the rational model:
sign, integer part, a decimal point and the fractional digits (at least one).
No claim evaluates it; string-typed cells never reach it. -/
def decimalRepr (q : ℚ) : Str :=
  let sgn : Str := if q < 0 then ['-'] else []
  let n := q.num.natAbs
  let d := q.den
  sgn ++ (toString (n / d)).data ++ ['.'] ++
    (if n % d = 0 then ['0'] else fracDigitsAux 17 (n % d) d)

/-- Embeds Python str(cell) as applied to the fields of a loaded row. -/
def pyStr : Cell → Str
  | Cell.str s => s
  | Cell.nan => ("nan").data
  | Cell.int n => (toString n).data
  | Cell.float q => decimalRepr q
  | Cell.inf b => if b then ("-inf").data else ("inf").data

/-- The seo_content mapping as read back by the exporters: the three keys the
export code fetches (generate_seo_content always writes them; its
schema_markup block is never read by any export and is not modelled). -/
structure SeoContent where
  meta_title : Str
  meta_description : Str
  keywords : Str
deriving DecidableEq

/-- Embeds the Product dataclass of beauty_product_manager.py lines 23 to 38;
the three enrichment fields default to None. -/
structure Product where
  id : Str
  name : Str
  brand : Str
  category : Str
  price : PyFloat
  description : Str
  sku : Str
  skin_types : List Str
  ingredients : List Str
  usage : Str
  image_urls : Option (List Str) := none
  seo_content : Option SeoContent := none
  enhanced_description : Option Str := none
deriving DecidableEq

/-- Embeds the truthiness guard of the list-field parsers when the raw cell is
not a string: an empty string or a zero number short-circuits to the empty
list, while NaN, infinities and non-zero numbers are truthy and reach the
membership test sep in x, a TypeError modelled as none. -/
def parseListField (f : Str → List Str) : Cell → Option (List Str)
  | Cell.str s => some (f s)
  | Cell.int n => if n = 0 then some [] else none
  | Cell.float q => if q = 0 then some [] else none
  | Cell.nan => none
  | Cell.inf _ => none

/-- The Product value built by the load_csv loop for one row, given the three
field computations that can raise. -/
def rowProduct (r : Row) (price : PyFloat) (skin ingr : List Str) : Product :=
  { id := pyStr (pyGet r colID (Cell.str []))
    name := pyStr (pyGet r colName (Cell.str []))
    brand := pyStr (pyGet r colBrandMeta (pyGet r colBrand (Cell.str [])))
    category := pyStr (pyGet r colCategories (Cell.str []))
    price := price
    description := pyStr (pyGet r colDescription (Cell.str []))
    sku := pyStr (pyGet r colSKU (Cell.str []))
    skin_types := skin
    ingredients := ingr
    usage := pyStr (pyGet r colUsage (Cell.str [])) }

/-- Embeds the construction of one Product in the loop of
BeautyProductManager.load_csv (beauty_product_manager.py lines 76 to 89);
none is a raised exception for that row. -/
def parseRow (r : Row) : Option Product :=
  match pyFloatOfCell (pyGet r colRegularPrice (Cell.int 0)) with
  | none => none
  | some price =>
    match parseListField parse_skin_types (pyGet r colSkinType (Cell.str [])) with
    | none => none
    | some skin =>
      match parseListField parse_ingredients (pyGet r colIngredients (Cell.str [])) with
      | none => none
      | some ingr => some (rowProduct r price skin ingr)

/-- The row loop of load_csv: all rows in order, short-circuiting on the first
exception, which the surrounding try turns into an aborted load. -/
def parseAll : List Row → Option (List Product)
  | [] => some []
  | r :: rest =>
    match parseRow r, parseAll rest with
    | some p, some ps => some (p :: ps)
    | _, _ => none

/-- Embeds BeautyProductManager.load_csv (beauty_product_manager.py lines 70
to 97) from the dataframe level: one Product per row in order, except that any
exception lands in the handler at lines 95 to 97, which returns the empty
list. -/
def load_csv (rows : List Row) : List Product :=
  match parseAll rows with
  | some ps => ps
  | none => []

/-- The default NA markers of pandas.read_csv. -/
def pandasNaTokens : List Str :=
  [("").data, ("#N/A").data, ("#N/A N/A").data, ("#NA").data, ("-1.#IND").data,
   ("-1.#QNAN").data, ("-NaN").data, ("-nan").data, ("1.#IND").data,
   ("1.#QNAN").data, ("<NA>").data, ("N/A").data, ("NA").data, ("NULL").data,
   ("NaN").data, ("None").data, ("n/a").data, ("nan").data, ("null").data]

/-- An integer literal as recognized by the pandas reader: optional sign and
plain digits. -/
def parseIntLit (s : Str) : Option ℤ :=
  let sb := splitSign s
  if !sb.2.isEmpty && sb.2.all Char.isDigit then
    some (if sb.1 then -(digitsToNat sb.2 : ℤ) else (digitsToNat sb.2 : ℤ))
  else none

/-- Embeds the cell conversion of pandas.read_csv at beauty_product_manager.py
line 73: a default NA marker such as N/A or the empty cell becomes the float
NaN, integer and float literals become numbers, everything else stays a
string.  In pandas the numeric inference is per column rather than per cell;
the difference is unobservable through this pipeline and no claim depends on
it. -/
def readCsvCell (raw : Str) : Cell :=
  if raw ∈ pandasNaTokens then Cell.nan
  else
    match parseIntLit raw with
    | some n => Cell.int n
    | none =>
      match parseFloatLit raw with
      | some (PyFloat.val q) => Cell.float q
      | some PyFloat.inf => Cell.inf false
      | some PyFloat.ninf => Cell.inf true
      | some PyFloat.nan => Cell.nan
      | none => Cell.str raw

/-- The outcome of the load step of run_full_pipeline. -/
inductive PipelineOutcome where
  | errorNoProducts
  | completed (products : List Product)
deriving DecidableEq

/-- Embeds the guard of BeautyProductManager.run_full_pipeline
(beauty_product_manager.py lines 351 to 354): when load_csv comes back empty
the pipeline answers the error dictionary, otherwise it proceeds with the
loaded products.  The later enrichment, export and scraping steps perform
network and file IO outside the transformation core and are not modelled. -/
def pipelineGate (rows : List Row) : PipelineOutcome :=
  let ps := load_csv rows
  if ps.isEmpty then PipelineOutcome.errorNoProducts else PipelineOutcome.completed ps

/-- A request-payload product of main.generate_json_pages: a JSON dictionary
with string values. -/
abbrev RowD := List (Str × Str)

/-- Embeds Python dict.get(key, default) on string dictionaries. -/
def pyDictGetD (d : RowD) (k dflt : Str) : Str :=
  match alistGet? d k with
  | some v => v
  | none => dflt

/-- Embeds the brand resolution of main.generate_json_pages line 303: the
brand metadata value when present and truthy, else the Brand column with the
Unknown default. -/
def mainBrandKey (d : RowD) : Str :=
  match alistGet? d colBrandMeta with
  | some v => if v.isEmpty then pyDictGetD d colBrand (("Unknown").data) else v
  | none => pyDictGetD d colBrand (("Unknown").data)

lemma parseRow_some_elim {r : Row} {p : Product} (h : parseRow r = some p) :
    ∃ pf sk ig,
      pyFloatOfCell (pyGet r colRegularPrice (Cell.int 0)) = some pf ∧
      p = rowProduct r pf sk ig := by
  unfold parseRow at h
  cases h1 : pyFloatOfCell (pyGet r colRegularPrice (Cell.int 0)) with
  | none => rw [h1] at h; exact absurd h (by simp)
  | some pf =>
    rw [h1] at h
    cases h2 : parseListField parse_skin_types (pyGet r colSkinType (Cell.str [])) with
    | none => rw [h2] at h; exact absurd h (by simp)
    | some sk =>
      rw [h2] at h
      cases h3 : parseListField parse_ingredients (pyGet r colIngredients (Cell.str [])) with
      | none => rw [h3] at h; exact absurd h (by simp)
      | some ig =>
        rw [h3] at h
        simp only [Option.some.injEq] at h
        exact ⟨pf, sk, ig, rfl, h.symm⟩

lemma parseRow_none_of_price_fail {r : Row}
    (h : pyFloatOfCell (pyGet r colRegularPrice (Cell.int 0)) = none) :
    parseRow r = none := by
  unfold parseRow
  rw [h]

lemma parseAll_none_of_mem {rows : List Row} {r : Row} (hr : r ∈ rows)
    (hn : parseRow r = none) : parseAll rows = none := by
  induction rows with
  | nil => cases hr
  | cons a rest ih =>
    rcases List.mem_cons.mp hr with h | h
    · subst h
      unfold parseAll
      rw [hn]
    · unfold parseAll
      rw [ih h]
      cases parseRow a <;> rfl

lemma parseAll_some_length {rows : List Row} {ps : List Product}
    (h : parseAll rows = some ps) : ps.length = rows.length := by
  induction rows generalizing ps with
  | nil => unfold parseAll at h; simp only [Option.some.injEq] at h; subst h; rfl
  | cons r rest ih =>
    unfold parseAll at h
    cases h1 : parseRow r with
    | none => rw [h1] at h; exact absurd h (by simp)
    | some p =>
      rw [h1] at h
      cases h2 : parseAll rest with
      | none => rw [h2] at h; exact absurd h (by simp)
      | some ps' =>
        rw [h2] at h
        simp only [Option.some.injEq] at h
        subst h
        simp [ih h2]

lemma parseAll_some_get {rows : List Row} {ps : List Product}
    (h : parseAll rows = some ps) :
    ∀ i (h1 : i < rows.length) (h2 : i < ps.length),
      parseRow (rows.get ⟨i, h1⟩) = some (ps.get ⟨i, h2⟩) := by
  induction rows generalizing ps with
  | nil => intro i h1 _; exact absurd h1 (by simp)
  | cons r rest ih =>
    unfold parseAll at h
    cases h1 : parseRow r with
    | none => rw [h1] at h; exact absurd h (by simp)
    | some p =>
      rw [h1] at h
      cases h2 : parseAll rest with
      | none => rw [h2] at h; exact absurd h (by simp)
      | some ps' =>
        rw [h2] at h
        simp only [Option.some.injEq] at h
        subst h
        intro i hi hj
        cases i with
        | zero => simpa using h1
        | succ n =>
          simp only [List.get_cons_succ]
          exact ih h2 n (by simpa using hi) (by simpa using hj)

/-- C2 corrected: a Regular price cell that pandas read as an NA marker (such
as N/A or an empty cell) loads as NaN rather than 0 and rather than an error;
a non-NA string that float() cannot parse aborts the whole load, which
returns the empty list; price 0 arises from the get default only when the
Regular price column is absent from the row. -/
theorem claim2_price_defaults :
    (∀ r p, parseRow r = some p →
      pyGet r colRegularPrice (Cell.int 0) = Cell.nan → p.price = PyFloat.nan) ∧
    (∀ rows r s, r ∈ rows → pyGet r colRegularPrice (Cell.int 0) = Cell.str s →
      parseFloatLit s = none → load_csv rows = []) ∧
    (∀ r p, parseRow r = some p → alistGet? r colRegularPrice = none →
      p.price = PyFloat.val 0) ∧
    readCsvCell ("N/A").data = Cell.nan := by
  refine ⟨?_, ?_, ?_, by decide⟩
  · intro r p hp hc
    obtain ⟨pf, sk, ig, hpf, hprod⟩ := parseRow_some_elim hp
    rw [hc] at hpf
    simp only [pyFloatOfCell, Option.some.injEq] at hpf
    rw [hprod]
    exact hpf.symm
  · intro rows r s hr hc hparse
    have hfail : pyFloatOfCell (pyGet r colRegularPrice (Cell.int 0)) = none := by
      rw [hc]
      exact hparse
    have : parseAll rows = none :=
      parseAll_none_of_mem hr (parseRow_none_of_price_fail hfail)
    unfold load_csv
    rw [this]
  · intro r p hp habsent
    obtain ⟨pf, sk, ig, hpf, hprod⟩ := parseRow_some_elim hp
    have hc : pyGet r colRegularPrice (Cell.int 0) = Cell.int 0 := by
      unfold pyGet
      rw [habsent]
    rw [hc] at hpf
    simp only [pyFloatOfCell, Option.some.injEq] at hpf
    rw [hprod]
    rw [← hpf]
    simp [rowProduct]

/-- The single-column row holding the NaN cell pandas produces for a Regular
price of N/A. -/
def naPriceRow : Row := [(colRegularPrice, Cell.nan)]

/-- The Product load_csv builds from naPriceRow: every string field defaults
to empty and the price is NaN. -/
def naPriceProduct : Product :=
  { id := [], name := [], brand := [], category := [], price := PyFloat.nan,
    description := [], sku := [], skin_types := [], ingredients := [], usage := [] }

/-- A row whose Regular price is a non-NA string float() cannot parse. -/
def badPriceRow : Row := [(colRegularPrice, Cell.str ("abc").data)]

/-- Counterexample to C2 as stated: pandas reads an N/A price as NaN, the
loaded Product carries price NaN, which is not 0; and a non-NA unparseable
price string makes load_csv return the empty list instead of a Product with
price 0. -/
theorem claim2_price_defaults_cex :
    readCsvCell ("N/A").data = Cell.nan ∧
    parseRow naPriceRow = some naPriceProduct ∧
    naPriceProduct.price ≠ PyFloat.val 0 ∧
    load_csv [badPriceRow] = [] := by decide

/-- Witness for C2: the amended theorem applied to the concrete NaN-price
row. -/
theorem claim2_price_defaults_witness : naPriceProduct.price = PyFloat.nan :=
  claim2_price_defaults.1 naPriceRow naPriceProduct (by decide) (by decide)

/-- C3 corrected: whenever every row of the sequence parses, load_csv returns
exactly one Product per row, in input order; but a single failing row makes
the exception handler return the empty list, dropping every row. -/
theorem claim3_row_count (rows : List Row) (ps : List Product)
    (h : parseAll rows = some ps) :
    load_csv rows = ps ∧ ps.length = rows.length ∧
    ∀ i (h1 : i < rows.length) (h2 : i < ps.length),
      parseRow (rows.get ⟨i, h1⟩) = some (ps.get ⟨i, h2⟩) := by
  refine ⟨?_, parseAll_some_length h, parseAll_some_get h⟩
  unfold load_csv
  rw [h]

def rowA : Row := [(colName, Cell.str ("A").data)]

def rowB : Row := [(colName, Cell.str ("B").data)]

def productA : Product :=
  { id := [], name := ("A").data, brand := [], category := [],
    price := PyFloat.val 0, description := [], sku := [], skin_types := [],
    ingredients := [], usage := [] }

def productB : Product :=
  { id := [], name := ("B").data, brand := [], category := [],
    price := PyFloat.val 0, description := [], sku := [], skin_types := [],
    ingredients := [], usage := [] }

/-- Witness for C3: a concrete two-row input where every row parses loads to
exactly two Products in order. -/
theorem claim3_row_count_witness :
    load_csv [rowA, rowB] = [productA, productB] ∧
    ([productA, productB] : List Product).length = ([rowA, rowB] : List Row).length :=
  ⟨(claim3_row_count [rowA, rowB] [productA, productB] (by decide)).1,
   (claim3_row_count [rowA, rowB] [productA, productB] (by decide)).2.1⟩

/-- Counterexample to C3 as stated: one row whose Regular price string is not
numeric makes load_csv return zero Products for one structurally-present
row. -/
theorem claim3_row_count_cex :
    load_csv [badPriceRow] = [] ∧
    (load_csv [badPriceRow]).length ≠ ([badPriceRow] : List Row).length := by decide

/-- C4 corrected: the parsed Product resolves brand from the brand metadata
column, else the Brand column, else the empty string, never the Unknown
sentinel; the Unknown sentinel belongs to generate_json_pages in main.py,
whose brand key falls back to Unknown only when the metadata value is missing
or empty and the Brand key is absent. -/
theorem claim4_brand_fallback :
    (∀ r p, parseRow r = some p →
      p.brand = pyStr (pyGet r colBrandMeta (pyGet r colBrand (Cell.str [])))) ∧
    (∀ r p, parseRow r = some p → alistGet? r colBrandMeta = none →
      alistGet? r colBrand = none → p.brand = []) ∧
    (∀ d, alistGet? d colBrandMeta = none → alistGet? d colBrand = none →
      mainBrandKey d = ("Unknown").data) ∧
    (∀ d v, alistGet? d colBrandMeta = some v → ¬v.isEmpty →
      mainBrandKey d = v) ∧
    (∀ d v, alistGet? d colBrandMeta = none → alistGet? d colBrand = some v →
      mainBrandKey d = v) := by
  refine ⟨?_, ?_, ?_, ?_, ?_⟩
  · intro r p hp
    obtain ⟨pf, sk, ig, _, hprod⟩ := parseRow_some_elim hp
    rw [hprod]
    rfl
  · intro r p hp hm hb
    obtain ⟨pf, sk, ig, _, hprod⟩ := parseRow_some_elim hp
    rw [hprod]
    show pyStr (pyGet r colBrandMeta (pyGet r colBrand (Cell.str []))) = []
    unfold pyGet
    rw [hm, hb]
    rfl
  · intro d hm hb
    unfold mainBrandKey pyDictGetD
    rw [hm, hb]
  · intro d v hm hv
    unfold mainBrandKey
    rw [hm]
    simp [hv]
  · intro d v hm hb
    unfold mainBrandKey pyDictGetD
    rw [hm, hb]

def noBrandRow : Row := [(colName, Cell.str ("X").data)]

def noBrandProduct : Product :=
  { id := [], name := ("X").data, brand := [], category := [],
    price := PyFloat.val 0, description := [], sku := [], skin_types := [],
    ingredients := [], usage := [] }

/-- Counterexample to C4 as stated: a row with neither brand column parses to
a Product whose brand is the empty string, not the Unknown sentinel. -/
theorem claim4_brand_fallback_cex :
    parseRow noBrandRow = some noBrandProduct ∧
    noBrandProduct.brand ≠ ("Unknown").data := by decide

/-- Witness for C4: the amended theorem applied to the concrete row lacking
both brand columns, and to a dictionary lacking both keys. -/
theorem claim4_brand_fallback_witness :
    noBrandProduct.brand = [] ∧
    mainBrandKey [(colName, ("X").data)] = ("Unknown").data :=
  ⟨claim4_brand_fallback.2.1 noBrandRow noBrandProduct (by decide) (by decide) (by decide),
   claim4_brand_fallback.2.2.1 [(colName, ("X").data)] (by decide) (by decide)⟩

/-- C9 corrected: load_csv signals a failed read with the same empty list a
successful empty load produces, and run_full_pipeline maps any empty load,
legitimate or failed, to the same error outcome; the two situations are not
distinguishable. -/
theorem claim9_failure_result (rows : List Row) :
    (pipelineGate rows = PipelineOutcome.errorNoProducts ↔ load_csv rows = []) ∧
    (parseAll rows = none → load_csv rows = []) ∧
    load_csv ([] : List Row) = [] := by
  refine ⟨?_, ?_, rfl⟩
  · unfold pipelineGate
    cases h : load_csv rows with
    | nil => simp
    | cons p ps => simp
  · intro h
    unfold load_csv
    rw [h]

/-- Counterexample to C9 as stated: the empty input loads successfully to the
empty list, the malformed input fails and also yields the empty list, and the
pipeline answers the identical error outcome for both, so no caller can tell
them apart. -/
theorem claim9_failure_result_cex :
    load_csv ([] : List Row) = load_csv [badPriceRow] ∧
    pipelineGate ([] : List Row) = pipelineGate [badPriceRow] ∧
    pipelineGate ([] : List Row) = PipelineOutcome.errorNoProducts := by decide

/-- Witness for C9: the amended theorem applied to the concrete malformed
input. -/
theorem claim9_failure_result_witness : load_csv [badPriceRow] = [] :=
  (claim9_failure_result [badPriceRow]).2.1 (by decide)

/-- One aggregate entry of the brand or category maps: the derived slug set at
creation and the ordered list of member products.  The templated description
and meta strings of each entry are pure functions of the key alone and carry
no grouping content. -/
structure Page (α : Type) where
  slug : Str
  products : List α
deriving DecidableEq

/-- Embeds one iteration of the grouping loops (agents lines 179 to 208,
main.py lines 302 to 351, beauty_product_manager.py lines 323 to 338): create
the entry on first encounter of the key, then append the product to the
entry's list.  The map is an insertion-ordered association list, matching
Python dict iteration order. -/
def aggInsert {α : Type} (slugOf : Str → Str) (k : Str) (p : α) :
    List (Str × Page α) → List (Str × Page α)
  | [] => [(k, ⟨slugOf k, [p]⟩)]
  | (k', pg) :: rest =>
    if k' = k then (k', ⟨pg.slug, pg.products ++ [p]⟩) :: rest
    else (k', pg) :: aggInsert slugOf k p rest

/-- A whole grouping pass: one aggInsert per product, in input order. -/
def aggregateBy {α : Type} (keyOf : α → Str) (slugOf : Str → Str)
    (ps : List α) : List (Str × Page α) :=
  ps.foldl (fun m p => aggInsert slugOf (keyOf p) p m) []

/-- The member products of the aggregate under a key, empty when the key has
no aggregate. -/
def aggProducts {α : Type} (m : List (Str × Page α)) (k : Str) : List α :=
  match alistGet? m k with
  | some pg => pg.products
  | none => []

/-- The keys of a list in first-seen order. -/
def firstKeys (l : List Str) : List Str :=
  l.foldl (fun acc k => if k ∈ acc then acc else acc ++ [k]) []

lemma aggProducts_insert {α : Type} (so : Str → Str) (k : Str) (p : α)
    (m : List (Str × Page α)) (k' : Str) :
    aggProducts (aggInsert so k p m) k' =
      aggProducts m k' ++ (if k' = k then [p] else []) := by
  induction m with
  | nil =>
    by_cases h : k' = k
    · simp [aggInsert, aggProducts, alistGet?, h]
    · have h2 : ¬k = k' := fun hh => h hh.symm
      simp [aggInsert, aggProducts, alistGet?, h, h2]
  | cons hd rest ih =>
    obtain ⟨k₀, pg⟩ := hd
    by_cases hk : k₀ = k
    · by_cases hk' : k₀ = k'
      · have h3 : k' = k := hk'.symm.trans hk
        simp [aggInsert, aggProducts, alistGet?, hk, hk', h3]
      · have h3 : ¬k' = k := fun hh => hk' (hk.trans hh.symm)
        have h4 : ¬k = k' := fun hh => hk' (hk.trans hh)
        simp [aggInsert, aggProducts, alistGet?, hk, hk', h3, h4]
    · by_cases hk' : k₀ = k'
      · have h3 : ¬k' = k := fun hh => hk (hk'.trans hh)
        simp [aggInsert, aggProducts, alistGet?, hk, hk', h3]
      · simp only [aggInsert, hk, if_false]
        simp only [aggProducts, alistGet?, hk', if_false]
        exact ih

lemma keys_insert {α : Type} (so : Str → Str) (k : Str) (p : α)
    (m : List (Str × Page α)) :
    (aggInsert so k p m).map Prod.fst =
      if k ∈ m.map Prod.fst then m.map Prod.fst else m.map Prod.fst ++ [k] := by
  induction m with
  | nil =>
    simp only [aggInsert, List.map_cons, List.map_nil]
    rw [if_neg (List.not_mem_nil k)]
    rfl
  | cons hd rest ih =>
    obtain ⟨k₀, pg⟩ := hd
    by_cases hk : k₀ = k
    · have hkm : k ∈ (k₀ :: rest.map Prod.fst) := List.mem_cons.mpr (Or.inl hk.symm)
      simp only [aggInsert, if_pos hk, List.map_cons]
      rw [if_pos hkm]
    · have hk2 : ¬k = k₀ := fun hh => hk hh.symm
      simp only [aggInsert, if_neg hk, List.map_cons]
      rw [ih]
      by_cases hmem : k ∈ rest.map Prod.fst
      · rw [if_pos hmem, if_pos (List.mem_cons_of_mem _ hmem)]
      · rw [if_neg hmem, if_neg (by simp [List.mem_cons, hk2, hmem])]
        rfl

lemma slug_insert {α : Type} (so : Str → Str) (k : Str) (p : α)
    (m : List (Str × Page α))
    (hm : ∀ k' pg, (k', pg) ∈ m → pg.slug = so k') :
    ∀ k' pg, (k', pg) ∈ aggInsert so k p m → pg.slug = so k' := by
  induction m with
  | nil =>
    intro q qg hmem
    simp only [aggInsert, List.mem_singleton, Prod.mk.injEq] at hmem
    rw [hmem.2, hmem.1]
  | cons hd rest ih =>
    obtain ⟨k₀, pg₀⟩ := hd
    intro q qg hmem
    by_cases hk : k₀ = k
    · simp only [aggInsert, if_pos hk] at hmem
      rcases List.mem_cons.mp hmem with heq | hr
      · have h1 : q = k₀ := congrArg Prod.fst heq
        have h2 : qg = ⟨pg₀.slug, pg₀.products ++ [p]⟩ := congrArg Prod.snd heq
        rw [h1, h2]
        exact hm k₀ pg₀ (List.mem_cons_self _ _)
      · exact hm q qg (List.mem_cons_of_mem _ hr)
    · simp only [aggInsert, if_neg hk] at hmem
      rcases List.mem_cons.mp hmem with heq | hr
      · have h1 : q = k₀ := congrArg Prod.fst heq
        have h2 : qg = pg₀ := congrArg Prod.snd heq
        rw [h1, h2]
        exact hm k₀ pg₀ (List.mem_cons_self _ _)
      · exact ih (fun a b hab => hm a b (List.mem_cons_of_mem _ hab)) q qg hr

lemma aggregateBy_go_products {α : Type} (keyOf : α → Str) (so : Str → Str) :
    ∀ (ps : List α) (m : List (Str × Page α)) (k : Str),
      aggProducts (ps.foldl (fun m p => aggInsert so (keyOf p) p m) m) k =
        aggProducts m k ++ ps.filter (fun p => decide (keyOf p = k)) := by
  intro ps
  induction ps with
  | nil => intro m k; simp
  | cons p ps ih =>
    intro m k
    simp only [List.foldl_cons, List.filter_cons]
    rw [ih, aggProducts_insert]
    by_cases h : keyOf p = k
    · simp [h, List.append_assoc]
    · have h2 : (k = keyOf p) ↔ False := ⟨fun hh => h hh.symm, False.elim⟩
      simp [h, h2]

lemma aggregateBy_go_keys {α : Type} (keyOf : α → Str) (so : Str → Str) :
    ∀ (ps : List α) (m : List (Str × Page α)),
      (ps.foldl (fun m p => aggInsert so (keyOf p) p m) m).map Prod.fst =
        (ps.map keyOf).foldl
          (fun acc k => if k ∈ acc then acc else acc ++ [k]) (m.map Prod.fst) := by
  intro ps
  induction ps with
  | nil => intro m; rfl
  | cons p ps ih =>
    intro m
    simp only [List.foldl_cons, List.map_cons]
    rw [ih, keys_insert]

lemma aggregateBy_go_slug {α : Type} (keyOf : α → Str) (so : Str → Str) :
    ∀ (ps : List α) (m : List (Str × Page α)),
      (∀ k' pg, (k', pg) ∈ m → pg.slug = so k') →
      ∀ k' pg, (k', pg) ∈ ps.foldl (fun m p => aggInsert so (keyOf p) p m) m →
        pg.slug = so k' := by
  intro ps
  induction ps with
  | nil => intro m hm; exact hm
  | cons p ps ih =>
    intro m hm
    simp only [List.foldl_cons]
    exact ih _ (slug_insert so (keyOf p) p m hm)

lemma dedupFold_nodup :
    ∀ (l acc : List Str), acc.Nodup →
      (l.foldl (fun acc k => if k ∈ acc then acc else acc ++ [k]) acc).Nodup := by
  intro l
  induction l with
  | nil => intro acc h; exact h
  | cons k l ih =>
    intro acc h
    simp only [List.foldl_cons]
    by_cases hk : k ∈ acc
    · simpa [hk] using ih acc h
    · have : (acc ++ [k]).Nodup := by
        simp [List.nodup_append, h, hk]
      simpa [hk] using ih (acc ++ [k]) this

lemma alistGet_of_mem_nodup {β : Type} {m : List (Str × β)}
    (hnd : (m.map Prod.fst).Nodup) {k : Str} {v : β} (hm : (k, v) ∈ m) :
    alistGet? m k = some v := by
  induction m with
  | nil => cases hm
  | cons hd rest ih =>
    obtain ⟨k₀, v₀⟩ := hd
    simp only [List.map_cons, List.nodup_cons] at hnd
    rcases List.mem_cons.mp hm with h | h
    · obtain ⟨h1, h2⟩ := Prod.mk.injEq .. ▸ h
      subst h1; subst h2
      simp [alistGet?]
    · have hne : ¬k₀ = k := by
        intro hh
        subst hh
        exact hnd.1 (List.mem_map_of_mem Prod.fst h)
      simp only [alistGet?, hne, if_false]
      exact ih hnd.2 h

/-- C5: one grouping pass places every product in exactly the aggregate of
its key (the aggregate's list is the input filtered to that key, preserving
relative order), entries are created once per key and never duplicated (keys
are nodup), each entry carries the slug derived from its key at creation, and
the map keys appear in first-seen order.  The statement is generic over the
key and slug functions, covering the brand and the category pass of
DeveloperAgent._generate_json_pages and the same loops in
generate_brand_pages and main.generate_json_pages. -/
theorem claim5_aggregation {α : Type} (keyOf : α → Str) (slugOf : Str → Str)
    (ps : List α) :
    ((aggregateBy keyOf slugOf ps).map Prod.fst).Nodup ∧
    (∀ k, aggProducts (aggregateBy keyOf slugOf ps) k =
      ps.filter (fun p => decide (keyOf p = k))) ∧
    (∀ k pg, (k, pg) ∈ aggregateBy keyOf slugOf ps →
      pg.products = ps.filter (fun p => decide (keyOf p = k)) ∧
      pg.slug = slugOf k) ∧
    (aggregateBy keyOf slugOf ps).map Prod.fst = firstKeys (ps.map keyOf) := by
  have hkeys : (aggregateBy keyOf slugOf ps).map Prod.fst = firstKeys (ps.map keyOf) := by
    unfold aggregateBy firstKeys
    exact aggregateBy_go_keys keyOf slugOf ps []
  have hnd : ((aggregateBy keyOf slugOf ps).map Prod.fst).Nodup := by
    rw [hkeys]
    exact dedupFold_nodup _ [] List.nodup_nil
  have hprod : ∀ k, aggProducts (aggregateBy keyOf slugOf ps) k =
      ps.filter (fun p => decide (keyOf p = k)) := by
    intro k
    unfold aggregateBy
    rw [aggregateBy_go_products keyOf slugOf ps [] k]
    rfl
  refine ⟨hnd, hprod, ?_, hkeys⟩
  intro k pg hm
  have hslug : pg.slug = slugOf k :=
    aggregateBy_go_slug keyOf slugOf ps [] (by intro a b hab; cases hab) k pg hm
  have hget : alistGet? (aggregateBy keyOf slugOf ps) k = some pg :=
    alistGet_of_mem_nodup hnd hm
  have : aggProducts (aggregateBy keyOf slugOf ps) k = pg.products := by
    unfold aggProducts
    rw [hget]
  exact ⟨this.symm.trans (hprod k), hslug⟩

/-- Embeds the brand key of DeveloperAgent._generate_json_pages line 180. -/
def agentBrandKey (d : RowD) : Str := pyDictGetD d (("brand").data) (("Unknown").data)

/-- Embeds the category key of DeveloperAgent._generate_json_pages line
196. -/
def agentCategoryKey (d : RowD) : Str := pyDictGetD d (("category").data) (("Unknown").data)

/-- Embeds the category key of main.generate_json_pages line 330. -/
def mainCategoryKey (d : RowD) : Str := pyDictGetD d colCategories (("Unknown").data)

def dAcme1 : RowD := [((("brand").data), ("Acme").data), ((("name").data), ("P1").data)]

def dAcme2 : RowD := [((("brand").data), ("Acme").data), ((("name").data), ("P2").data)]

def dZed : RowD := [((("brand").data), ("Zed").data), ((("name").data), ("P3").data)]

def acmePage : Page RowD := ⟨("acme").data, [dAcme1, dAcme2]⟩

/-- Embeds Python str.lower() character-wise; Python lowercases the full
Unicode range while Char.toLower covers ASCII letters, which is all the
claims exercise. -/
def pyLowerStr (s : Str) : Str := s.map Char.toLower

/-- Embeds .replace of a space by a hyphen: every space becomes a hyphen. -/
def hyphenate (s : Str) : Str := s.map (fun c => if c = ' ' then '-' else c)

/-- Embeds .replace of an apostrophe by the empty string: every apostrophe is
removed. -/
def stripApostrophes (s : Str) : Str := s.filter (fun c => c != Char.ofNat 39)

/-- Embeds the brand slug of main.generate_json_pages line 307: lowercase,
spaces to hyphens, apostrophes removed. -/
def brandSlugMain (name : Str) : Str := stripApostrophes (hyphenate (pyLowerStr name))

/-- Embeds the category slug of main.generate_json_pages line 334 and both
slugs of DeveloperAgent._generate_json_pages lines 184 and 200: lowercase and
spaces to hyphens, with no apostrophe removal. -/
def slugPlain (name : Str) : Str := hyphenate (pyLowerStr name)

/-- The slug derivation as the spec words it in section 4.2, transcribed for
comparison with the code: lower(name).replace(space, hyphen) with apostrophes
stripped. -/
def specSlug (name : Str) : Str := stripApostrophes (hyphenate (pyLowerStr name))

/-- The brand map built by DeveloperAgent._generate_json_pages. -/
def agentJsonBrands (products : List RowD) : List (Str × Page RowD) :=
  aggregateBy agentBrandKey slugPlain products

/-- The category map built by DeveloperAgent._generate_json_pages. -/
def agentJsonCategories (products : List RowD) : List (Str × Page RowD) :=
  aggregateBy agentCategoryKey slugPlain products

/-- Witness for C5: the aggregation theorem applied to the concrete
three-product input with brands Acme, Acme, Zed; the Acme aggregate holds the
two Acme products in input order and the slug derived from the key. -/
theorem claim5_aggregation_witness :
    acmePage.products = [dAcme1, dAcme2] ∧ acmePage.slug = slugPlain (("Acme").data) := by
  have h := (claim5_aggregation agentBrandKey slugPlain [dAcme1, dAcme2, dZed]).2.2.1
      (("Acme").data) acmePage (by decide)
  exact ⟨h.1.trans (by decide), h.2⟩

/-- C6 corrected: the main.py brand slug is the spec derivation (lowercase,
hyphens, apostrophes stripped); the main.py category slug and the agent slugs
keep apostrophes, and agree with the brand slug exactly on names whose
lowercased hyphenated form has no apostrophe. -/
theorem claim6_slug_derivation (name : Str) :
    brandSlugMain name = specSlug name ∧
    brandSlugMain name = stripApostrophes (slugPlain name) ∧
    (slugPlain name = brandSlugMain name ↔ Char.ofNat 39 ∉ slugPlain name) := by
  refine ⟨rfl, rfl, ?_⟩
  show slugPlain name = stripApostrophes (slugPlain name) ↔ Char.ofNat 39 ∉ slugPlain name
  rw [eq_comm]
  unfold stripApostrophes
  rw [List.filter_eq_self]
  constructor
  · intro h hmem
    have := h _ hmem
    simp at this
  · intro hnot a ha
    simp only [bne_iff_ne, ne_eq, decide_eq_true_eq]
    intro heq
    rw [heq] at ha
    exact hnot ha

/-- Counterexample to C6 as stated: on the spec's own example the category
slug keeps the apostrophe, so brand and category aggregates do not share one
derivation. -/
theorem claim6_slug_derivation_cex :
    slugPlain (("L'Oréal Paris").data) ≠ brandSlugMain (("L'Oréal Paris").data) ∧
    brandSlugMain (("L'Oréal Paris").data) = ("loréal-paris").data ∧
    slugPlain (("L'Oréal Paris").data) = ("l'oréal-paris").data := by decide

/-- Witness for C6: the amended theorem applied to a concrete name. -/
theorem claim6_slug_derivation_witness :
    brandSlugMain (("L'Oréal Paris").data) = specSlug (("L'Oréal Paris").data) ∧
    (slugPlain (("Acme Co").data) = brandSlugMain (("Acme Co").data)) :=
  ⟨(claim6_slug_derivation (("L'Oréal Paris").data)).1,
   (claim6_slug_derivation (("Acme Co").data)).2.2.mpr (by decide)⟩

/-- One sitemap entry as built by generate_json_pages; the priority is the
string literal of the source. -/
structure SitemapEntry where
  url : Str
  changefreq : Str
  priority : Str
deriving DecidableEq

/-- The four bootstrap entries of the sitemap, in the literal order of
main.py lines 354 to 359 and agents lines 211 to 216. -/
def sitemapBootstrap : List SitemapEntry :=
  [⟨("/").data, ("daily").data, ("1.0").data⟩,
   ⟨("/products").data, ("daily").data, ("0.9").data⟩,
   ⟨("/brands").data, ("weekly").data, ("0.8").data⟩,
   ⟨("/categories").data, ("weekly").data, ("0.8").data⟩]

def brandSitemapEntry {α : Type} (e : Str × Page α) : SitemapEntry :=
  ⟨("/brand/").data ++ e.2.slug, ("weekly").data, ("0.7").data⟩

def categorySitemapEntry {α : Type} (e : Str × Page α) : SitemapEntry :=
  ⟨("/category/").data ++ e.2.slug, ("weekly").data, ("0.7").data⟩

/-- Embeds the sitemap construction of main.generate_json_pages lines 353 to
373 and DeveloperAgent._generate_json_pages lines 210 to 230: the bootstrap
list, then one append per brand in map order, then one append per category in
map order. -/
def buildSitemap {α β : Type} (brands : List (Str × Page α))
    (cats : List (Str × Page β)) : List SitemapEntry :=
  let withBrands := brands.foldl (fun acc e => acc ++ [brandSitemapEntry e]) sitemapBootstrap
  cats.foldl (fun acc e => acc ++ [categorySitemapEntry e]) withBrands

lemma foldl_append_singleton {β γ : Type} (f : β → γ) :
    ∀ (l : List β) (init : List γ),
      l.foldl (fun acc b => acc ++ [f b]) init = init ++ l.map f := by
  intro l
  induction l with
  | nil => intro init; simp
  | cons b bs ih =>
    intro init
    simp only [List.foldl_cons, List.map_cons]
    rw [ih]
    simp [List.append_assoc]

/-- C7: for every brand map and category map the sitemap is exactly the four
bootstrap entries in their literal order and values, then one brand entry per
brand in map iteration order, then one category entry per category in map
iteration order, for a total of 4 plus brands plus categories entries. -/
theorem claim7_sitemap {α β : Type} (brands : List (Str × Page α))
    (cats : List (Str × Page β)) :
    buildSitemap brands cats =
      sitemapBootstrap ++ brands.map brandSitemapEntry ++ cats.map categorySitemapEntry ∧
    (buildSitemap brands cats).length = 4 + brands.length + cats.length ∧
    sitemapBootstrap =
      [⟨("/").data, ("daily").data, ("1.0").data⟩,
       ⟨("/products").data, ("daily").data, ("0.9").data⟩,
       ⟨("/brands").data, ("weekly").data, ("0.8").data⟩,
       ⟨("/categories").data, ("weekly").data, ("0.8").data⟩] := by
  have h1 : buildSitemap brands cats =
      sitemapBootstrap ++ brands.map brandSitemapEntry ++ cats.map categorySitemapEntry := by
    unfold buildSitemap
    rw [foldl_append_singleton, foldl_append_singleton]
  refine ⟨h1, ?_, rfl⟩
  rw [h1]
  simp [sitemapBootstrap]
  omega

/-- One row of the woocommerce export of BeautyProductManager.export_to_csv
(beauty_product_manager.py lines 265 to 287); the fields appear in the column
order of the headers list at lines 254 to 259. -/
structure WooRow where
  wooId : Nat
  wooType : Str
  wooSku : Str
  wooName : Str
  wooPublished : Nat
  wooIsFeatured : Nat
  wooVisibility : Str
  wooShortDescription : Str
  wooDescription : Str
  wooTaxStatus : Str
  wooInStock : Nat
  wooStock : Nat
  wooRegularPrice : PyFloat
  wooCategories : Str
  wooTags : Str
  wooImages : Str
  wooSeoTitle : Str
  wooSeoDescription : Str
  wooSeoFocusKeyword : Str
deriving DecidableEq

/-- Embeds the Python expression a or b on an optional string: the default
when the option is absent or holds the falsy empty string. -/
def pyOrStr (o : Option Str) (dflt : Str) : Str :=
  match o with
  | some v => if v.isEmpty then dflt else v
  | none => dflt

/-- Embeds product.image_urls or the empty list. -/
def pyOrList (o : Option (List Str)) : List Str :=
  match o with
  | some l => l
  | none => []

/-- Embeds the row construction of the woocommerce branch of export_to_csv
for the 1-based sequence number i and one product. -/
def wooRow (i : Nat) (p : Product) : WooRow :=
  { wooId := i
    wooType := ("simple").data
    wooSku := p.sku
    wooName := p.name
    wooPublished := 1
    wooIsFeatured := 0
    wooVisibility := ("visible").data
    wooShortDescription := p.description.take 200
    wooDescription := pyOrStr p.enhanced_description p.description
    wooTaxStatus := ("taxable").data
    wooInStock := 1
    wooStock := 10
    wooRegularPrice := p.price
    wooCategories := p.category
    wooTags := []
    wooImages := List.intercalate ((";").data) (pyOrList p.image_urls)
    wooSeoTitle :=
      match p.seo_content with
      | some s => s.meta_title
      | none => []
    wooSeoDescription :=
      match p.seo_content with
      | some s => s.meta_description
      | none => []
    wooSeoFocusKeyword :=
      match p.seo_content with
      | some s => (pySplit s.keywords ((",").data)).headD []
      | none => [] }

/-- Embeds the woocommerce branch of export_to_csv: one row per product in
input order with a 1-based sequence number. -/
def export_to_csv_woocommerce (products : List Product) : List WooRow :=
  ((List.range products.length).zip products).map (fun ip => wooRow (ip.1 + 1) ip.2)

/-- C8: for a product with no enrichment, the commerce export row keeps the
original description, truncates the short description to 200 characters,
leaves the three SEO columns and the images column empty, and carries the
fixed literals of the schema; a singleton export consists of exactly that
row with sequence number 1. -/
theorem claim8_commerce_export (i : Nat) (p : Product)
    (hdesc : p.enhanced_description = none) (hseo : p.seo_content = none)
    (himg : p.image_urls = none) :
    (wooRow i p).wooDescription = p.description ∧
    (wooRow i p).wooShortDescription = p.description.take 200 ∧
    (wooRow i p).wooSeoTitle = [] ∧
    (wooRow i p).wooSeoDescription = [] ∧
    (wooRow i p).wooSeoFocusKeyword = [] ∧
    (wooRow i p).wooImages = [] ∧
    (wooRow i p).wooType = ("simple").data ∧
    (wooRow i p).wooPublished = 1 ∧
    (wooRow i p).wooIsFeatured = 0 ∧
    (wooRow i p).wooVisibility = ("visible").data ∧
    (wooRow i p).wooTaxStatus = ("taxable").data ∧
    (wooRow i p).wooInStock = 1 ∧
    (wooRow i p).wooStock = 10 ∧
    export_to_csv_woocommerce [p] = [wooRow 1 p] := by
  refine ⟨?_, rfl, ?_, ?_, ?_, ?_, rfl, rfl, rfl, rfl, rfl, rfl, rfl, rfl⟩
  · simp [wooRow, pyOrStr, hdesc]
  · simp [wooRow, hseo]
  · simp [wooRow, hseo]
  · simp [wooRow, hseo]
  · simp [wooRow, pyOrList, himg, List.intercalate]

/-- Witness for C8: the theorem applied to a concrete enrichment-free
product. -/
theorem claim8_commerce_export_witness :
    (wooRow 1 productA).wooDescription = productA.description ∧
    (wooRow 1 productA).wooSeoTitle = [] ∧
    (wooRow 1 productA).wooStock = 10 :=
  ⟨(claim8_commerce_export 1 productA rfl rfl rfl).1,
   (claim8_commerce_export 1 productA rfl rfl rfl).2.2.1,
   (claim8_commerce_export 1 productA rfl rfl rfl).2.2.2.2.2.2.2.2.2.2.2.2.1⟩

end LivAgent
